import Mathlib

/-!
Verification of the node health/rotation policy and call dispatch protocol of
the steem-python fork (files `steepbase/node.py`, `steepbase/http_client.py`,
`steepbase/connector.py`, `new_client/node.py`).

Shallow embedding conventions:
* wall-clock time (`datetime.now()` / `timedelta`) is a `Nat` passed
  explicitly as `now`; timeouts are `Nat` in the same unit (minutes);
* Python properties with lazy self-healing side effects (`is_available`,
  `is_banned`, `is_working`) become pure functions returning the boolean
  together with the updated node;
* `_ban_timestamp` / `_unavailable_timestamp` are initialised to `None` in
  Python but only ever read while the corresponding flag is set, and every
  code path that sets the flag also stores a timestamp; we model them as
  `Nat` initialised to `0`, which is behaviourally identical;
* `itertools.cycle` over the node list becomes an index advanced modulo the
  list length (the Python cycle object is always positioned exactly one step
  past `_current_node`, which the `cycle_pos` field of the new_client
  container makes explicit).
-/

/-- One blockchain endpoint plus its health/capability state
(`Node` of `steepbase/node.py` and `new_client/node.py`; the two classes
differ only in default timeout values, captured by the two `init`
functions below). -/
structure Node where
  url : String
  available : Bool
  banned : Bool
  use_condenser_api : Bool
  ban_timestamp : Nat
  unavailable_timestamp : Nat
  ban_timeout : Nat
  unavailable_timeout : Nat
deriving DecidableEq, Repr

/-- `Node.__init__` of `steepbase/node.py`: available, not banned, full API,
ban timeout 2 minutes, unavailability timeout 20 minutes. -/
def Node.init (url : String) : Node :=
  { url := url
    available := true
    banned := false
    use_condenser_api := true
    ban_timestamp := 0
    unavailable_timestamp := 0
    ban_timeout := 2
    unavailable_timeout := 20 }

/-- `Node.__init__` of `new_client/node.py`: identical except the
unavailability timeout defaults to 30 minutes. -/
def Node.init_new_client (url : String) : Node :=
  { Node.init url with unavailable_timeout := 30 }

instance : Inhabited Node := ⟨Node.init ""⟩

/-- `Node.is_available` property: self-healing check — if marked unavailable
and the unavailability window has elapsed, clear the flag; return the flag
together with the (possibly healed) node. -/
def Node.is_available (n : Node) (now : Nat) : Bool × Node :=
  if n.available then (true, n)
  else if n.unavailable_timestamp + n.unavailable_timeout ≤ now then
    (true, { n with available := true })
  else (false, n)

/-- `Node.is_banned` property: self-healing check with the ban window. -/
def Node.is_banned (n : Node) (now : Nat) : Bool × Node :=
  if n.banned then
    if n.ban_timestamp + n.ban_timeout ≤ now then
      (false, { n with banned := false })
    else (true, n)
  else (false, n)

/-- `Node.is_working` property: `self.is_available and not self.is_banned`,
with Python's short-circuit (the ban check only runs when the availability
check returned true).  The same expression appears inline in
`new_client/node.py` (`lap`, `next_node`). -/
def Node.is_working (n : Node) (now : Nat) : Bool × Node :=
  let a := n.is_available now
  if a.1 then
    let b := a.2.is_banned now
    (!b.1, b.2)
  else (false, a.2)

/-- `Node.set_unavailable`: store the current time and drop the flag. -/
def Node.set_unavailable (n : Node) (now : Nat) : Node :=
  { n with unavailable_timestamp := now, available := false }

/-- `Node.set_banned`: store the current time and raise the flag. -/
def Node.set_banned (n : Node) (now : Nat) : Node :=
  { n with ban_timestamp := now, banned := true }

/-- `Node.reset`: make the node available and not banned (timestamps are
left untouched, exactly as in the source). -/
def Node.reset (n : Node) : Node :=
  { n with banned := false, available := true }

/-- The `use_condenser_api` property setter. The only call site in the
client is `http_client.py` line 139, which passes `False`. -/
def Node.set_use_condenser_api (n : Node) (v : Bool) : Node :=
  { n with use_condenser_api := v }

/-- `NodesContainer` of `steepbase/node.py`: the node list plus the index of
`_current_node`.  After `__init__` the current node is `nodes[0]` and the
`cycle` iterator is positioned one step past it, an invariant maintained by
every `next` call, so a single index suffices. -/
structure NodesContainer where
  nodes : List Node
  cur : Nat
deriving DecidableEq, Repr

/-- `NodesContainer.__init__` from a URL list. -/
def NodesContainer.init (urls : List String) : NodesContainer :=
  { nodes := urls.map Node.init, cur := 0 }

/-- `NodesContainer._working_nodes_exist`: scan the list, stopping at the
first working node; the self-healing side effects of `is_working` on the
scanned prefix are kept (threaded into the returned list). -/
def working_nodes_exist (now : Nat) : List Node → Bool × List Node
  | [] => (false, [])
  | n :: rest =>
    let w := n.is_working now
    if w.1 then (true, w.2 :: rest)
    else
      let r := working_nodes_exist now rest
      (r.1, w.2 :: r.2)

/-- `NodesContainer._reset_nodes`: reset every node. -/
def reset_nodes (ns : List Node) : List Node := ns.map Node.reset

/-- The body of the `for _ in range(self._nodes_amount)` loop shared by
`NodesContainer.lap` of `steepbase/node.py` and the loop of
`new_client/node.py`'s `lap`: `fuel` iterations, each checking the node at
the cursor (`is_working` in steepbase, the identical inline
`is_available and not is_banned` in new_client), yielding it when working,
and advancing the cursor one step around the ring.  Yields carry the ring
index alongside the node value at yield time. -/
def lap_loop (now : Nat) : Nat → List Node → Nat → List (Nat × Node) × List Node × Nat
  | 0, nodes, cur => ([], nodes, cur)
  | fuel + 1, nodes, cur =>
    let w := (nodes.getD cur default).is_working now
    let rest := lap_loop now fuel (nodes.set cur w.2) ((cur + 1) % nodes.length)
    if w.1 then ((cur, w.2) :: rest.1, rest.2) else rest

/-- `NodesContainer.lap` of `steepbase/node.py`: if no node is working,
reset all of them; then walk one full ring starting at the current node,
yielding the nodes that pass the yield-time health check. -/
def NodesContainer.lap (nc : NodesContainer) (now : Nat) :
    List (Nat × Node) × List Node × Nat :=
  let r := working_nodes_exist now nc.nodes
  let nodes2 := if r.1 then r.2 else reset_nodes r.2
  lap_loop now nodes2.length nodes2 nc.cur

/-- `NodesContainer` of `new_client/node.py`: here `_current_node` and the
`cycle` iterator can be apart by more than one step (after `next_node`), so
the position of the cycle iterator is kept separately. -/
structure NewClientNodesContainer where
  nodes : List Node
  cur : Nat
  cycle_pos : Nat
deriving DecidableEq, Repr

/-- `NodesContainer.lap` of `new_client/node.py`: yield `_current_node`
first, **without any health check**, then walk `_nodes_amount` further
steps of the cycle yielding the working nodes.  No reset is performed. -/
def NewClientNodesContainer.lap (c : NewClientNodesContainer) (now : Nat) :
    List (Nat × Node) × List Node × Nat :=
  let rest := lap_loop now c.nodes.length c.nodes c.cycle_pos
  ((c.cur, c.nodes.getD c.cur default) :: rest.1, rest.2)

/-- The operations the client ever performs on a `Node`
(`steepbase/node.py` mutators and self-healing property reads; `downgrade`
is the single `use_condenser_api = False` assignment of
`http_client.py` line 139). -/
inductive NodeOp : Type
  | set_banned_op (t : Nat)
  | set_unavailable_op (t : Nat)
  | reset_op
  | check_available (t : Nat)
  | check_banned (t : Nat)
  | check_working (t : Nat)
  | downgrade
deriving DecidableEq, Repr

/-- Apply one client operation to a node (property reads return the healed
node). -/
def apply_node_op (op : NodeOp) (n : Node) : Node :=
  match op with
  | .set_banned_op t => n.set_banned t
  | .set_unavailable_op t => n.set_unavailable t
  | .reset_op => n.reset
  | .check_available t => (n.is_available t).2
  | .check_banned t => (n.is_banned t).2
  | .check_working t => (n.is_working t).2
  | .downgrade => n.set_use_condenser_api false

/-- Apply a sequence of client operations. -/
def apply_node_ops (ops : List NodeOp) (n : Node) : Node :=
  ops.foldl (fun m op => apply_node_op op m) n

/-- No client operation ever turns `use_condenser_api` back on. -/
theorem apply_node_op_use_condenser_api_false (op : NodeOp) (n : Node)
    (h : n.use_condenser_api = false) :
    (apply_node_op op n).use_condenser_api = false := by
  cases op with
  | set_banned_op t => simpa [apply_node_op, Node.set_banned] using h
  | set_unavailable_op t => simpa [apply_node_op, Node.set_unavailable] using h
  | reset_op => simpa [apply_node_op, Node.reset] using h
  | check_available t =>
    simp only [apply_node_op, Node.is_available]
    split_ifs <;> simpa using h
  | check_banned t =>
    simp only [apply_node_op, Node.is_banned]
    split_ifs <;> simpa using h
  | check_working t =>
    simp only [apply_node_op, Node.is_working, Node.is_available, Node.is_banned]
    split_ifs <;> simpa using h
  | downgrade => simp [apply_node_op, Node.set_use_condenser_api]

theorem apply_node_ops_use_condenser_api_false (ops : List NodeOp) (n : Node)
    (h : n.use_condenser_api = false) :
    (apply_node_ops ops n).use_condenser_api = false := by
  induction ops generalizing n with
  | nil => exact h
  | cons op rest ih =>
    exact ih _ (apply_node_op_use_condenser_api_false op n h)

/-- **C7.** Downgrading (`use_condenser_api = False`) is idempotent and
one-way: applying the setter twice equals applying it once, and after a
downgrade no sequence of client operations (health reads, ban/unavailable
marks, resets, further downgrades) ever brings `use_condenser_api` back to
true for the lifetime of the `Node` value. -/
theorem c7_downgrade_idempotent_one_way (n : Node) (ops : List NodeOp) :
    Node.set_use_condenser_api (Node.set_use_condenser_api n false) false
        = Node.set_use_condenser_api n false
      ∧ (apply_node_ops ops (Node.set_use_condenser_api n false)).use_condenser_api
        = false := by
  constructor
  · simp [Node.set_use_condenser_api]
  · exact apply_node_ops_use_condenser_api_false ops _ (by
      simp [Node.set_use_condenser_api])

/-- **C9.** Immediately after `set_banned` the node reports
`is_banned = true` (the ban window is positive), and once the clock reaches
the ban timestamp plus the ban timeout, `is_banned` reports `false` with no
explicit reset; the analogous self-healing holds for
`set_unavailable`/`is_available`, and the default unavailability window of
a freshly constructed node is longer than its ban window. -/
theorem c9_ban_self_healing (n : Node) (t now : Nat) :
    (0 < n.ban_timeout → ((n.set_banned t).is_banned t).1 = true)
      ∧ (t + n.ban_timeout ≤ now → ((n.set_banned t).is_banned now).1 = false)
      ∧ (0 < n.unavailable_timeout →
          ((n.set_unavailable t).is_available t).1 = false)
      ∧ (t + n.unavailable_timeout ≤ now →
          ((n.set_unavailable t).is_available now).1 = true)
      ∧ (Node.init n.url).ban_timeout < (Node.init n.url).unavailable_timeout := by
  refine ⟨?_, ?_, ?_, ?_, by simp [Node.init]⟩
  · intro h
    simp only [Node.set_banned, Node.is_banned]
    split_ifs <;> simp_all
  · intro h
    simp only [Node.set_banned, Node.is_banned]
    split_ifs <;> simp_all
  · intro h
    simp only [Node.set_unavailable, Node.is_available]
    split_ifs <;> simp_all
  · intro h
    simp only [Node.set_unavailable, Node.is_available]
    split_ifs <;> simp_all

/-- Witness for C9 at a concrete node: banned at the banning instant,
self-healed two minutes later; unavailable at the marking instant,
self-healed twenty minutes later. -/
theorem c9_ban_self_healing_witness :
    (((Node.init "https://node").set_banned 5).is_banned 5).1 = true
      ∧ (((Node.init "https://node").set_banned 5).is_banned 7).1 = false
      ∧ (((Node.init "https://node").set_unavailable 5).is_available 5).1 = false
      ∧ (((Node.init "https://node").set_unavailable 5).is_available 25).1 = true := by
  obtain ⟨h1, h2, h3, h4, _⟩ := c9_ban_self_healing (Node.init "https://node") 5 25
  obtain ⟨h1b, h2b, h3b, h4b, _⟩ := c9_ban_self_healing (Node.init "https://node") 5 7
  exact ⟨h1 (by decide), h2b (by decide), h3 (by decide), h4 (by decide)⟩

/-- Model of the scheme extraction of the consumed standard-library
`urllib.parse.urlparse(url).scheme`: the prefix before the first colon,
lowercased, provided it is non-empty, starts with a letter and consists of
letters, digits, `+`, `-`, `.`; otherwise the empty string. -/
def scheme_char (c : Char) : Bool :=
  c.isAlphanum || c = '+' || c = '-' || c = '.'

/-- Scheme of a URL string (see `scheme_char`). -/
def url_scheme (url : String) : String :=
  let cs := url.data
  if cs.contains ':' then
    let pre := cs.takeWhile (fun c => c ≠ ':')
    match pre with
    | [] => ""
    | c :: rest =>
      if c.isAlpha && (c :: rest).all scheme_char then
        String.mk ((c :: rest).map Char.toLower)
      else ""
  else ""

/-- `ws_schemas` of `Connector.get_scheme`. -/
def ws_schemas : List String := ["ws", "wss"]

/-- `http_schemas` of `Connector.get_scheme`. -/
def http_schemas : List String := ["", "http", "https"]

/-- `Connector.get_scheme` (`steepbase/connector.py`): the loop over the
node URLs sets `is_ws` when some URL has a WS(S) scheme and `is_http` when
some URL has an HTTP(S)/blank scheme, which is exactly a disjunction over
the list; mixing or having neither raises `InvalidNodeSchemes`, modelled as
`Except.error` with the source's message. -/
def Connector.get_scheme (nodes : List String) : Except String String :=
  let is_ws := nodes.any (fun n => ws_schemas.contains (url_scheme n))
  let is_http := nodes.any (fun n => http_schemas.contains (url_scheme n))
  if (is_ws && is_http) || (!is_ws && !is_http) then
    Except.error "Invalid node schemas. All schemas should be of one type: http(s) or ws(s)."
  else Except.ok (if is_ws then "ws" else "http")

/-- The client implementation a `Connector` selects. -/
inductive ClientKind : Type
  | http_client
  | ws_client
deriving DecidableEq, Repr

/-- `Connector.__init__`: select `HttpClient` for scheme `'http'`,
`WsClient` for `'ws'`, otherwise raise `InvalidNodeSchemes`
(`'Unsupported node scheme.'`). -/
def Connector.init (nodes : List String) : Except String ClientKind :=
  match Connector.get_scheme nodes with
  | Except.error e => Except.error e
  | Except.ok s =>
    if s = "http" then Except.ok ClientKind.http_client
    else if s = "ws" then Except.ok ClientKind.ws_client
    else Except.error "Unsupported node scheme."

/-- Membership reformulation of `List.contains` on strings. -/
theorem string_list_contains_iff (l : List String) (x : String) :
    l.contains x = true ↔ x ∈ l := by
  simp [List.contains_eq_any_beq, List.any_eq_true, beq_iff_eq, eq_comm]

/-- **C10.** Constructing a `Connector` raises `InvalidNodeSchemes` exactly
when the URL list is empty, mixes the HTTP(S) and WS(S) scheme families, or
consists only of URLs of neither family (the empty list being the
degenerate case of the last disjunct); otherwise an all-HTTP(S) list
selects the HTTP client and an all-WS(S) list selects the WS client. -/
theorem c10_connector_scheme_selection (nodes : List String) :
    ((∃ e, Connector.init nodes = Except.error e) ↔
        (nodes = []
          ∨ ((∃ u ∈ nodes, url_scheme u ∈ ws_schemas)
              ∧ (∃ u ∈ nodes, url_scheme u ∈ http_schemas))
          ∨ (∀ u ∈ nodes, url_scheme u ∉ ws_schemas ∧ url_scheme u ∉ http_schemas)))
      ∧ (nodes ≠ [] → (∀ u ∈ nodes, url_scheme u ∈ http_schemas) →
          Connector.init nodes = Except.ok ClientKind.http_client)
      ∧ (nodes ≠ [] → (∀ u ∈ nodes, url_scheme u ∈ ws_schemas) →
          Connector.init nodes = Except.ok ClientKind.ws_client) := by
  have hwsE : (nodes.any fun n => ws_schemas.contains (url_scheme n)) = true
      ↔ (∃ u ∈ nodes, url_scheme u ∈ ws_schemas) := by
    simp [List.any_eq_true, string_list_contains_iff]
  have hhttpE : (nodes.any fun n => http_schemas.contains (url_scheme n)) = true
      ↔ (∃ u ∈ nodes, url_scheme u ∈ http_schemas) := by
    simp [List.any_eq_true, string_list_contains_iff]
  have hdisj : ∀ s : String, s ∈ ws_schemas → s ∈ http_schemas → False := by
    intro s h1 h2
    simp [ws_schemas, http_schemas] at h1 h2
    rcases h1 with rfl | rfl <;> simp at h2
  refine ⟨?_, ?_, ?_⟩
  · by_cases hA : ∃ u ∈ nodes, url_scheme u ∈ ws_schemas <;>
      by_cases hB : ∃ u ∈ nodes, url_scheme u ∈ http_schemas
    · have h1 : (nodes.any fun n => ws_schemas.contains (url_scheme n)) = true :=
        hwsE.mpr hA
      have h2 : (nodes.any fun n => http_schemas.contains (url_scheme n)) = true :=
        hhttpE.mpr hB
      have hinit : Connector.init nodes
          = Except.error "Invalid node schemas. All schemas should be of one type: http(s) or ws(s)." := by
        simp only [Connector.init, Connector.get_scheme]
        rw [h1, h2]
        rfl
      constructor
      · intro _
        exact Or.inr (Or.inl ⟨hA, hB⟩)
      · intro _
        exact ⟨_, hinit⟩
    · have h1 : (nodes.any fun n => ws_schemas.contains (url_scheme n)) = true :=
        hwsE.mpr hA
      have h2 : (nodes.any fun n => http_schemas.contains (url_scheme n)) = false :=
        Bool.eq_false_iff.mpr (fun hc => hB (hhttpE.mp hc))
      have hinit : Connector.init nodes = Except.ok ClientKind.ws_client := by
        simp only [Connector.init, Connector.get_scheme]
        rw [h1, h2]
        rfl
      constructor
      · rintro ⟨e, he⟩
        rw [hinit] at he
        exact absurd he (by simp)
      · rintro (rfl | hmix | hnone)
        · rcases hA with ⟨u, hu, _⟩
          exact absurd hu (List.not_mem_nil u)
        · exact absurd hmix.2 hB
        · rcases hA with ⟨u, hu, hs⟩
          exact absurd hs (hnone u hu).1
    · have h1 : (nodes.any fun n => ws_schemas.contains (url_scheme n)) = false :=
        Bool.eq_false_iff.mpr (fun hc => hA (hwsE.mp hc))
      have h2 : (nodes.any fun n => http_schemas.contains (url_scheme n)) = true :=
        hhttpE.mpr hB
      have hinit : Connector.init nodes = Except.ok ClientKind.http_client := by
        simp only [Connector.init, Connector.get_scheme]
        rw [h1, h2]
        rfl
      constructor
      · rintro ⟨e, he⟩
        rw [hinit] at he
        exact absurd he (by simp)
      · rintro (rfl | hmix | hnone)
        · rcases hB with ⟨u, hu, _⟩
          exact absurd hu (List.not_mem_nil u)
        · exact absurd hmix.1 hA
        · rcases hB with ⟨u, hu, hs⟩
          exact absurd hs (hnone u hu).2
    · have h1 : (nodes.any fun n => ws_schemas.contains (url_scheme n)) = false :=
        Bool.eq_false_iff.mpr (fun hc => hA (hwsE.mp hc))
      have h2 : (nodes.any fun n => http_schemas.contains (url_scheme n)) = false :=
        Bool.eq_false_iff.mpr (fun hc => hB (hhttpE.mp hc))
      have hinit : Connector.init nodes
          = Except.error "Invalid node schemas. All schemas should be of one type: http(s) or ws(s)." := by
        simp only [Connector.init, Connector.get_scheme]
        rw [h1, h2]
        rfl
      constructor
      · intro _
        push_neg at hA hB
        exact Or.inr (Or.inr (fun u hu => ⟨hA u hu, hB u hu⟩))
      · intro _
        exact ⟨_, hinit⟩
  · intro hne hall
    have hB : ∃ u ∈ nodes, url_scheme u ∈ http_schemas := by
      rcases nodes with _ | ⟨u, rest⟩
      · exact absurd rfl hne
      · exact ⟨u, by simp, hall u (by simp)⟩
    have hA : ¬ ∃ u ∈ nodes, url_scheme u ∈ ws_schemas := by
      rintro ⟨u, hu, hs⟩
      exact hdisj _ hs (hall u hu)
    have h1 : (nodes.any fun n => ws_schemas.contains (url_scheme n)) = false :=
      Bool.eq_false_iff.mpr (fun hc => hA (hwsE.mp hc))
    have h2 : (nodes.any fun n => http_schemas.contains (url_scheme n)) = true :=
      hhttpE.mpr hB
    simp only [Connector.init, Connector.get_scheme]
    rw [h1, h2]
    rfl
  · intro hne hall
    have hA : ∃ u ∈ nodes, url_scheme u ∈ ws_schemas := by
      rcases nodes with _ | ⟨u, rest⟩
      · exact absurd rfl hne
      · exact ⟨u, by simp, hall u (by simp)⟩
    have hB : ¬ ∃ u ∈ nodes, url_scheme u ∈ http_schemas := by
      rintro ⟨u, hu, hs⟩
      exact hdisj _ (hall u hu) hs
    have h1 : (nodes.any fun n => ws_schemas.contains (url_scheme n)) = true :=
      hwsE.mpr hA
    have h2 : (nodes.any fun n => http_schemas.contains (url_scheme n)) = false :=
      Bool.eq_false_iff.mpr (fun hc => hB (hhttpE.mp hc))
    simp only [Connector.init, Connector.get_scheme]
    rw [h1, h2]
    rfl

/-- Witness for C10 at concrete URL lists: two HTTPS endpoints select the
HTTP client, two WSS endpoints select the WS client, and a mixed list is
rejected. -/
theorem c10_connector_scheme_selection_witness :
    Connector.init ["https://a.example", "http://b.example"]
        = Except.ok ClientKind.http_client
      ∧ Connector.init ["wss://a.example", "ws://b.example"]
        = Except.ok ClientKind.ws_client
      ∧ (∃ e, Connector.init ["https://a.example", "ws://b.example"]
          = Except.error e) := by
  refine ⟨?_, ?_, ?_⟩
  · exact (c10_connector_scheme_selection _).2.1 (by simp) (by decide)
  · exact (c10_connector_scheme_selection _).2.2 (by simp) (by decide)
  · exact ((c10_connector_scheme_selection _).1).mpr
      (Or.inr (Or.inl ⟨⟨"ws://b.example", by simp, by decide⟩,
        ⟨"https://a.example", by simp, by decide⟩⟩))

/-! ### Helper lemmas about `List.getD` and `List.set` -/

theorem getD_set_self (l : List Node) (i : Nat) (a d : Node) (h : i < l.length) :
    (l.set i a).getD i d = a := by
  induction l generalizing i with
  | nil => simp at h
  | cons x xs ih =>
    cases i with
    | zero => simp [List.set]
    | succ k =>
      simp only [List.set, List.getD_cons_succ]
      exact ih k (by simpa using h)

theorem getD_set_ne (l : List Node) (i j : Nat) (a d : Node) (h : i ≠ j) :
    (l.set i a).getD j d = l.getD j d := by
  induction l generalizing i j with
  | nil => simp [List.set]
  | cons x xs ih =>
    cases i with
    | zero =>
      cases j with
      | zero => exact absurd rfl h
      | succ m => simp [List.set]
    | succ k =>
      cases j with
      | zero => simp [List.set]
      | succ m =>
        simp only [List.set, List.getD_cons_succ]
        exact ih k m (by omega)

theorem getD_mem (l : List Node) (i : Nat) (d : Node) (h : i < l.length) :
    l.getD i d ∈ l := by
  induction l generalizing i with
  | nil => simp at h
  | cons x xs ih =>
    cases i with
    | zero => simp
    | succ k =>
      simp only [List.getD_cons_succ]
      exact List.mem_cons_of_mem x (ih k (by simpa using h))

/-! ### Facts about the self-healing health checks -/

/-- A node that passes the `is_working` check comes out available and not
banned. -/
theorem is_working_true_flags (n : Node) (now : Nat)
    (h : (n.is_working now).1 = true) :
    (n.is_working now).2.available = true ∧ (n.is_working now).2.banned = false := by
  unfold Node.is_working Node.is_available Node.is_banned at h ⊢
  by_cases h1 : n.available = true <;>
    by_cases h2 : n.banned = true <;>
      by_cases h3 : n.ban_timestamp + n.ban_timeout ≤ now <;>
        by_cases h4 : n.unavailable_timestamp + n.unavailable_timeout ≤ now <;>
          simp_all

/-- The `is_working` check is idempotent: re-checking the healed node gives
the same verdict and the same node. -/
theorem is_working_idem (n : Node) (now : Nat) :
    ((n.is_working now).2).is_working now = n.is_working now := by
  rcases hav : n.available with _ | _ <;>
    rcases hb : n.banned with _ | _ <;>
      by_cases h3 : n.ban_timestamp + n.ban_timeout ≤ now <;>
        by_cases h4 : n.unavailable_timestamp + n.unavailable_timeout ≤ now <;>
          simp [Node.is_working, Node.is_available, Node.is_banned, hav, hb, h3, h4]

theorem is_working_fst_idem (n : Node) (now : Nat) :
    (((n.is_working now).2).is_working now).1 = (n.is_working now).1 := by
  rw [is_working_idem]

/-- A node that is banned and whose ban window has not yet elapsed fails the
working check, and the check leaves its ban state untouched. -/
theorem is_working_banned_unexpired (n : Node) (now : Nat)
    (hb : n.banned = true) (ht : now < n.ban_timestamp + n.ban_timeout) :
    (n.is_working now).1 = false
      ∧ (n.is_working now).2.banned = true
      ∧ (n.is_working now).2.ban_timestamp = n.ban_timestamp
      ∧ (n.is_working now).2.ban_timeout = n.ban_timeout := by
  have h3 : ¬ (n.ban_timestamp + n.ban_timeout ≤ now) := by omega
  unfold Node.is_working Node.is_available Node.is_banned
  by_cases h1 : n.available = true <;>
    by_cases h4 : n.unavailable_timestamp + n.unavailable_timeout ≤ now <;>
      simp [hb, h3, h1, h4]

/-- A reset node always passes the working check and is unchanged by it. -/
theorem reset_is_working (n : Node) (now : Nat) :
    ((n.reset).is_working now).1 = true ∧ ((n.reset).is_working now).2 = n.reset := by
  unfold Node.reset Node.is_working Node.is_available Node.is_banned
  simp

/-! ### Facts about `working_nodes_exist` -/

theorem working_nodes_exist_length (now : Nat) (ns : List Node) :
    ((working_nodes_exist now ns).2).length = ns.length := by
  induction ns with
  | nil => simp [working_nodes_exist]
  | cons n rest ih =>
    simp only [working_nodes_exist]
    split_ifs <;> simp [ih]

/-- The scan leaves the node at any index either untouched or once-checked. -/
theorem working_nodes_exist_getD (now : Nat) (ns : List Node) (j : Nat) (d : Node) :
    (working_nodes_exist now ns).2.getD j d = ns.getD j d
      ∨ (working_nodes_exist now ns).2.getD j d = ((ns.getD j d).is_working now).2 := by
  induction ns generalizing j with
  | nil => left; simp [working_nodes_exist]
  | cons n rest ih =>
    simp only [working_nodes_exist]
    split_ifs with hw
    · cases j with
      | zero => right; simp
      | succ k => left; simp
    · cases j with
      | zero => right; simp
      | succ k =>
        simpa only [List.getD_cons_succ] using ih k

/-- When every node is working, the scan reports success (on a non-empty
ring) and preserves the all-working property. -/
theorem working_nodes_exist_all_working (now : Nat) (ns : List Node)
    (h : ∀ n ∈ ns, (n.is_working now).1 = true) :
    (ns ≠ [] → (working_nodes_exist now ns).1 = true)
      ∧ ∀ n ∈ (working_nodes_exist now ns).2, (n.is_working now).1 = true := by
  induction ns with
  | nil => simp [working_nodes_exist]
  | cons n rest ih =>
    have hw : (n.is_working now).1 = true := h n (by simp)
    constructor
    · intro _
      simp [working_nodes_exist, hw]
    · intro m hm
      simp only [working_nodes_exist, hw, if_true] at hm
      rcases List.mem_cons.mp hm with rfl | hm2
      · rw [is_working_fst_idem]
        exact hw
      · exact h m (List.mem_cons_of_mem n hm2)

/-! ### Facts about `lap_loop` -/

theorem lap_loop_succ_true (now fuel : Nat) (nodes : List Node) (cur : Nat)
    (h : ((nodes.getD cur default).is_working now).1 = true) :
    lap_loop now (fuel + 1) nodes cur
      = ((cur, ((nodes.getD cur default).is_working now).2)
            :: (lap_loop now fuel (nodes.set cur ((nodes.getD cur default).is_working now).2)
                ((cur + 1) % nodes.length)).1,
         (lap_loop now fuel (nodes.set cur ((nodes.getD cur default).is_working now).2)
             ((cur + 1) % nodes.length)).2) := by
  simp only [lap_loop]
  rw [h]
  simp

theorem lap_loop_succ_false (now fuel : Nat) (nodes : List Node) (cur : Nat)
    (h : ((nodes.getD cur default).is_working now).1 = false) :
    lap_loop now (fuel + 1) nodes cur
      = lap_loop now fuel (nodes.set cur ((nodes.getD cur default).is_working now).2)
          ((cur + 1) % nodes.length) := by
  simp only [lap_loop]
  rw [h]
  simp

/-- On an all-working ring, one lap yields exactly the `fuel` consecutive
ring positions starting at the cursor. -/
theorem lap_loop_all_working (now : Nat) (k : Nat) :
    ∀ (nodes : List Node) (cur : Nat),
      cur < nodes.length →
      (∀ n ∈ nodes, (n.is_working now).1 = true) →
      (lap_loop now k nodes cur).1.map Prod.fst
        = (List.range k).map (fun i => (cur + i) % nodes.length) := by
  induction k with
  | zero =>
    intro nodes cur _ _
    simp [lap_loop]
  | succ k ih =>
    intro nodes cur hcur hall
    have hN : 0 < nodes.length := Nat.lt_of_le_of_lt (Nat.zero_le _) hcur
    have hw : ((nodes.getD cur default).is_working now).1 = true :=
      hall _ (getD_mem nodes cur default hcur)
    have hall2 : ∀ n ∈ nodes.set cur ((nodes.getD cur default).is_working now).2,
        (n.is_working now).1 = true := by
      intro m hm
      rcases List.mem_or_eq_of_mem_set hm with hm2 | rfl
      · exact hall m hm2
      · rw [is_working_fst_idem]
        exact hw
    have hcur2 : (cur + 1) % nodes.length
        < (nodes.set cur ((nodes.getD cur default).is_working now).2).length := by
      rw [List.length_set]
      exact Nat.mod_lt _ hN
    have hrec := ih _ _ hcur2 hall2
    rw [lap_loop_succ_true now k nodes cur hw]
    simp only [List.map_cons]
    rw [hrec, List.length_set, List.range_succ_eq_map, List.map_cons, List.map_map]
    congr 1
    · rw [Nat.add_zero, Nat.mod_eq_of_lt hcur]
    · apply List.map_congr_left
      intro i _
      show ((cur + 1) % nodes.length + i) % nodes.length = (cur + (i + 1)) % nodes.length
      rw [Nat.mod_add_mod]
      congr 1
      omega

theorem lap_loop_all_working_length (now : Nat) (k : Nat) (nodes : List Node)
    (cur : Nat) (hcur : cur < nodes.length)
    (hall : ∀ n ∈ nodes, (n.is_working now).1 = true) :
    (lap_loop now k nodes cur).1.length = k := by
  have h := congrArg List.length (lap_loop_all_working now k nodes cur hcur hall)
  simpa using h

/-- Every yielded node passed the health check: it is available and not
banned at yield time. -/
theorem lap_loop_yield_flags (now : Nat) (k : Nat) :
    ∀ (nodes : List Node) (cur : Nat) (p : Nat × Node),
      p ∈ (lap_loop now k nodes cur).1 →
      p.2.available = true ∧ p.2.banned = false := by
  induction k with
  | zero =>
    intro nodes cur p hp
    simp [lap_loop] at hp
  | succ k ih =>
    intro nodes cur p hp
    rcases hw : ((nodes.getD cur default).is_working now).1 with _ | _
    · rw [lap_loop_succ_false now k nodes cur hw] at hp
      exact ih _ _ _ hp
    · rw [lap_loop_succ_true now k nodes cur hw] at hp
      rcases List.mem_cons.mp hp with rfl | hp2
      · exact is_working_true_flags _ now hw
      · exact ih _ _ _ hp2

/-- A banned node whose ban window has not elapsed is never yielded. -/
theorem lap_loop_banned_not_mem (now : Nat) (k : Nat) :
    ∀ (nodes : List Node) (cur j : Nat),
      j < nodes.length →
      (nodes.getD j default).banned = true →
      now < (nodes.getD j default).ban_timestamp + (nodes.getD j default).ban_timeout →
      j ∉ (lap_loop now k nodes cur).1.map Prod.fst := by
  induction k with
  | zero =>
    intro nodes cur j _ _ _
    simp [lap_loop]
  | succ k ih =>
    intro nodes cur j hj hb ht
    by_cases hc : cur = j
    · subst hc
      obtain ⟨hw, hb2, hts, hto⟩ := is_working_banned_unexpired _ now hb ht
      rw [lap_loop_succ_false now k nodes cur hw]
      apply ih
      · rw [List.length_set]
        exact hj
      · rw [getD_set_self _ _ _ _ hj]
        exact hb2
      · rw [getD_set_self _ _ _ _ hj, hts, hto]
        exact ht
    · rcases hw : ((nodes.getD cur default).is_working now).1 with _ | _
      · rw [lap_loop_succ_false now k nodes cur hw]
        apply ih
        · rw [List.length_set]
          exact hj
        · rw [getD_set_ne _ _ _ _ _ hc]
          exact hb
        · rw [getD_set_ne _ _ _ _ _ hc]
          exact ht
      · rw [lap_loop_succ_true now k nodes cur hw]
        simp only [List.map_cons, List.mem_cons, not_or]
        refine ⟨fun heq => hc heq.symm, ?_⟩
        apply ih
        · rw [List.length_set]
          exact hj
        · rw [getD_set_ne _ _ _ _ _ hc]
          exact hb
        · rw [getD_set_ne _ _ _ _ _ hc]
          exact ht

/-- A node that passes the working check and lies within reach of the
remaining fuel is yielded. -/
theorem lap_loop_working_mem (now : Nat) (k : Nat) :
    ∀ (nodes : List Node) (cur j : Nat),
      cur < nodes.length → j < nodes.length →
      ((nodes.getD j default).is_working now).1 = true →
      (∃ i, i < k ∧ (cur + i) % nodes.length = j) →
      j ∈ (lap_loop now k nodes cur).1.map Prod.fst := by
  induction k with
  | zero =>
    rintro nodes cur j _ _ _ ⟨i, hi, _⟩
    omega
  | succ k ih =>
    intro nodes cur j hcur hj hP hex
    by_cases hc : cur = j
    · subst hc
      rw [lap_loop_succ_true now k nodes cur hP]
      simp
    · rcases hex with ⟨i, hik, hmod⟩
      have hi0 : i ≠ 0 := by
        intro h0
        subst h0
        rw [Nat.add_zero, Nat.mod_eq_of_lt hcur] at hmod
        exact hc hmod
      have hN : 0 < nodes.length := Nat.lt_of_le_of_lt (Nat.zero_le _) hcur
      have hex2 : ∃ i2, i2 < k ∧ (((cur + 1) % nodes.length) + i2) % nodes.length = j := by
        refine ⟨i - 1, by omega, ?_⟩
        rw [Nat.mod_add_mod]
        have hi : cur + 1 + (i - 1) = cur + i := by omega
        rw [hi]
        exact hmod
      have hcur2 : (cur + 1) % nodes.length < nodes.length := Nat.mod_lt _ hN
      rcases hw : ((nodes.getD cur default).is_working now).1 with _ | _
      · rw [lap_loop_succ_false now k nodes cur hw]
        apply ih
        · rw [List.length_set]
          exact hcur2
        · rw [List.length_set]
          exact hj
        · rw [getD_set_ne _ _ _ _ _ hc]
          exact hP
        · simpa [List.length_set] using hex2
      · rw [lap_loop_succ_true now k nodes cur hw]
        simp only [List.map_cons, List.mem_cons]
        right
        apply ih
        · rw [List.length_set]
          exact hcur2
        · rw [List.length_set]
          exact hj
        · rw [getD_set_ne _ _ _ _ _ hc]
          exact hP
        · simpa [List.length_set] using hex2

/-- The `fuel` consecutive ring positions starting anywhere are pairwise
distinct as long as `fuel` does not exceed the ring size. -/
theorem rotation_nodup (N cur k : Nat) (hk : k ≤ N) :
    ((List.range k).map (fun i => (cur + i) % N)).Nodup := by
  rcases Nat.eq_zero_or_pos N with rfl | hN
  · have hk0 : k = 0 := by omega
    subst hk0
    simp
  · apply List.Nodup.map_on ?_ (List.nodup_range k)
    intro i hi j hj heq
    have hi2 : i < k := List.mem_range.mp hi
    have hj2 : j < k := List.mem_range.mp hj
    have hmod : i % N = j % N :=
      Nat.ModEq.add_left_cancel (Nat.ModEq.refl cur) heq
    rwa [Nat.mod_eq_of_lt (by omega), Nat.mod_eq_of_lt (by omega)] at hmod

/-- Every ring position is reached within one full lap from any cursor. -/
theorem mem_rotation (N cur j : Nat) (hcur : cur < N) (hj : j < N) :
    ∃ i, i < N ∧ (cur + i) % N = j := by
  by_cases h : cur ≤ j
  · refine ⟨j - cur, by omega, ?_⟩
    have he : cur + (j - cur) = j := by omega
    rw [he]
    exact Nat.mod_eq_of_lt hj
  · refine ⟨j + N - cur, by omega, ?_⟩
    have he : cur + (j + N - cur) = j + N := by omega
    rw [he, Nat.add_mod_right]
    exact Nat.mod_eq_of_lt hj

/-! ### Claims C4, C5, C6 about the candidates generator `lap` -/

/-- A fully healthy two-node new_client ring in the standard configuration
(current node at position 0, cycle iterator one step past it). -/
def c4_new_ring : NewClientNodesContainer :=
  { nodes := [Node.init_new_client "https://a.example", Node.init_new_client "https://b.example"]
    cur := 0
    cycle_pos := 1 }

/-- **C4 (counterexample).** On a fully working ring of 2 nodes, the
new_client `lap` — one of the two `lap` implementations the claim covers —
yields 3 candidates, with ring position 0 yielded twice: the claim's
"exactly N nodes, all distinct, no node yielded twice" is false on
`new_client/node.py`, whose `lap` yields the current node unconditionally
before walking a full cycle. -/
theorem c4_counterexample :
    (∀ n ∈ c4_new_ring.nodes, (n.is_working 0).1 = true)
      ∧ (c4_new_ring.lap 0).1.map Prod.fst = [0, 1, 0]
      ∧ (c4_new_ring.lap 0).1.length = 3
      ∧ ¬ ((c4_new_ring.lap 0).1.map Prod.fst).Nodup := by decide

/-- **C4 (amended).** On an all-working ring, one full lap of the steepbase
container yields exactly N candidates at pairwise distinct ring positions;
the new_client container instead yields N + 1 candidates and repeats the
current position (it is yielded first, unchecked, and again at the end of
the cycle). -/
theorem c4_amended_lap_yield_counts
    (nc : NodesContainer) (c : NewClientNodesContainer) (now : Nat)
    (h1 : ∀ n ∈ nc.nodes, (n.is_working now).1 = true)
    (h2 : nc.cur < nc.nodes.length)
    (h3 : ∀ n ∈ c.nodes, (n.is_working now).1 = true)
    (h4 : c.cur < c.nodes.length)
    (h5 : c.cycle_pos = (c.cur + 1) % c.nodes.length) :
    ((nc.lap now).1.length = nc.nodes.length
        ∧ ((nc.lap now).1.map Prod.fst).Nodup)
      ∧ ((c.lap now).1.length = c.nodes.length + 1
        ∧ ¬ ((c.lap now).1.map Prod.fst).Nodup) := by
  have hne : nc.nodes ≠ [] :=
    List.ne_nil_of_length_pos (Nat.lt_of_le_of_lt (Nat.zero_le _) h2)
  obtain ⟨hwt, hall1⟩ := working_nodes_exist_all_working now nc.nodes h1
  have ht : (working_nodes_exist now nc.nodes).1 = true := hwt hne
  have hlen : (working_nodes_exist now nc.nodes).2.length = nc.nodes.length :=
    working_nodes_exist_length now nc.nodes
  have hcur1 : nc.cur < (working_nodes_exist now nc.nodes).2.length := by
    rw [hlen]
    exact h2
  have hN : 0 < c.nodes.length := Nat.lt_of_le_of_lt (Nat.zero_le _) h4
  have hpos : c.cycle_pos < c.nodes.length := by
    rw [h5]
    exact Nat.mod_lt _ hN
  refine ⟨⟨?_, ?_⟩, ?_, ?_⟩
  · simp only [NodesContainer.lap, ht, eq_self_iff_true, if_true]
    rw [lap_loop_all_working_length now _ _ _ hcur1 hall1]
    exact hlen
  · simp only [NodesContainer.lap, ht, eq_self_iff_true, if_true]
    rw [lap_loop_all_working now _ _ _ hcur1 hall1]
    exact rotation_nodup _ _ _ (le_refl _)
  · simp only [NewClientNodesContainer.lap, List.length_cons]
    rw [lap_loop_all_working_length now _ _ _ hpos h3]
  · simp only [NewClientNodesContainer.lap, List.map_cons]
    rw [lap_loop_all_working now _ _ _ hpos h3]
    intro hnd
    obtain ⟨hnotmem, -⟩ := List.nodup_cons.mp hnd
    apply hnotmem
    obtain ⟨i, hiN, hmod⟩ := mem_rotation c.nodes.length c.cycle_pos c.cur hpos h4
    exact List.mem_map.mpr ⟨i, List.mem_range.mpr hiN, hmod⟩

/-- A fully healthy three-node steepbase ring. -/
def c4_steep_ring : NodesContainer :=
  NodesContainer.init ["https://a.example", "https://b.example", "https://c.example"]

/-- Second new_client ring for the C4 witness. -/
def c4_new_ring2 : NewClientNodesContainer :=
  { nodes := [Node.init_new_client "https://x.example", Node.init_new_client "https://y.example"]
    cur := 0
    cycle_pos := 1 }

/-- Witness for the amended C4 at concrete rings. -/
theorem c4_amended_witness :
    (((c4_steep_ring.lap 3).1.length = c4_steep_ring.nodes.length
        ∧ ((c4_steep_ring.lap 3).1.map Prod.fst).Nodup)
      ∧ ((c4_new_ring2.lap 3).1.length = c4_new_ring2.nodes.length + 1
        ∧ ¬ ((c4_new_ring2.lap 3).1.map Prod.fst).Nodup)) :=
  c4_amended_lap_yield_counts c4_steep_ring c4_new_ring2 3
    (by decide) (by decide) (by decide) (by decide) (by decide)

/-- A node banned at time 0 with the default 2-minute window: still banned
at time 1. -/
def c5_banned_node : Node :=
  { Node.init_new_client "https://a.example" with banned := true }

/-- new_client ring whose current node is banned while another node is
healthy. -/
def c5_new_ring : NewClientNodesContainer :=
  { nodes := [c5_banned_node, Node.init_new_client "https://b.example"]
    cur := 0
    cycle_pos := 1 }

/-- **C5 (counterexample).** The new_client `lap` yields its current node
without any health check: on a ring with a working node, a currently banned
node is nevertheless yielded (as the first candidate), so "never yields a
node that is banned at the moment of the yield-time health check" is false
on `new_client/node.py`. -/
theorem c5_counterexample :
    (∃ n ∈ c5_new_ring.nodes, (n.is_working 1).1 = true)
      ∧ c5_banned_node.banned = true
      ∧ 1 < c5_banned_node.ban_timestamp + c5_banned_node.ban_timeout
      ∧ (0, c5_banned_node) ∈ (c5_new_ring.lap 1).1 := by decide

/-- **C5 (amended).** For the steepbase container, on a ring with at least
one working node: every yielded candidate is available and not banned at
yield time; a node whose ban window is still active is never yielded; and a
node that passes the working check (in particular one whose ban has
expired) is yielded within the lap.  For the new_client container the
guarantee holds for every yield except the first: the current node is
yielded without any health check. -/
theorem c5_amended_banned_never_yielded
    (nc : NodesContainer) (now j : Nat)
    (hw : (working_nodes_exist now nc.nodes).1 = true)
    (hcur : nc.cur < nc.nodes.length)
    (hj : j < nc.nodes.length) :
    (∀ p ∈ (nc.lap now).1, p.2.available = true ∧ p.2.banned = false)
      ∧ ((nc.nodes.getD j default).banned = true →
          now < (nc.nodes.getD j default).ban_timestamp
              + (nc.nodes.getD j default).ban_timeout →
          j ∉ (nc.lap now).1.map Prod.fst)
      ∧ (((nc.nodes.getD j default).is_working now).1 = true →
          j ∈ (nc.lap now).1.map Prod.fst)
      ∧ (∀ (c : NewClientNodesContainer) (p : Nat × Node),
          p ∈ ((c.lap now).1).tail → p.2.available = true ∧ p.2.banned = false) := by
  have hlen : (working_nodes_exist now nc.nodes).2.length = nc.nodes.length :=
    working_nodes_exist_length now nc.nodes
  have hcur1 : nc.cur < (working_nodes_exist now nc.nodes).2.length := by
    rw [hlen]
    exact hcur
  simp only [NodesContainer.lap, hw, eq_self_iff_true, if_true]
  refine ⟨?_, ?_, ?_, ?_⟩
  · intro p hp
    exact lap_loop_yield_flags now _ _ _ p hp
  · intro hb ht
    rcases working_nodes_exist_getD now nc.nodes j default with he | he
    · apply lap_loop_banned_not_mem
      · rw [hlen]
        exact hj
      · rw [he]
        exact hb
      · rw [he]
        exact ht
    · obtain ⟨-, hb2, hts, hto⟩ :=
        is_working_banned_unexpired (nc.nodes.getD j default) now hb ht
      apply lap_loop_banned_not_mem
      · rw [hlen]
        exact hj
      · rw [he]
        exact hb2
      · rw [he, hts, hto]
        exact ht
  · intro hP
    rcases working_nodes_exist_getD now nc.nodes j default with he | he
    · apply lap_loop_working_mem
      · exact hcur1
      · rw [hlen]
        exact hj
      · rw [he]
        exact hP
      · exact mem_rotation _ _ _ hcur1 (by rw [hlen]; exact hj)
    · apply lap_loop_working_mem
      · exact hcur1
      · rw [hlen]
        exact hj
      · rw [he, is_working_fst_idem]
        exact hP
      · exact mem_rotation _ _ _ hcur1 (by rw [hlen]; exact hj)
  · intro c p hp
    simp only [NewClientNodesContainer.lap, List.tail_cons] at hp
    exact lap_loop_yield_flags now _ _ _ p hp

/-- Steepbase ring with a banned node (banned at time 4) and a healthy
node. -/
def c5_steep_ring : NodesContainer :=
  { nodes := [{ Node.init "https://a.example" with banned := true, ban_timestamp := 4 },
      Node.init "https://b.example"]
    cur := 0 }

/-- Witness for the amended C5: at time 5 the ban (window 2) is still
active. -/
theorem c5_amended_witness :
    (∀ p ∈ (c5_steep_ring.lap 5).1, p.2.available = true ∧ p.2.banned = false)
      ∧ ((c5_steep_ring.nodes.getD 0 default).banned = true →
          5 < (c5_steep_ring.nodes.getD 0 default).ban_timestamp
              + (c5_steep_ring.nodes.getD 0 default).ban_timeout →
          0 ∉ (c5_steep_ring.lap 5).1.map Prod.fst)
      ∧ (((c5_steep_ring.nodes.getD 0 default).is_working 5).1 = true →
          0 ∈ (c5_steep_ring.lap 5).1.map Prod.fst)
      ∧ (∀ (c : NewClientNodesContainer) (p : Nat × Node),
          p ∈ ((c.lap 5).1).tail → p.2.available = true ∧ p.2.banned = false) :=
  c5_amended_banned_never_yielded c5_steep_ring 5 0
    (by decide) (by decide) (by decide)

/-- new_client ring with every node banned. -/
def c6_new_ring : NewClientNodesContainer :=
  { nodes := [{ Node.init_new_client "https://a.example" with banned := true },
      { Node.init_new_client "https://b.example" with banned := true }]
    cur := 0
    cycle_pos := 1 }

/-- **C6 (counterexample).** On a ring with no working node, the new_client
`lap` — one of the two implementations the claim covers — performs no reset
at all: it yields only the unchecked current node and leaves every node
banned, so "calls reset() on every node in the ring before yielding any
candidate" is false on `new_client/node.py`. -/
theorem c6_counterexample :
    (∀ n ∈ c6_new_ring.nodes, (n.is_working 1).1 = false)
      ∧ (c6_new_ring.lap 1).1.length = 1
      ∧ (∀ n ∈ (c6_new_ring.lap 1).2.1, n.banned = true) := by decide

/-- **C6 (amended).** When no node of a steepbase ring is working, `lap`
resets every node before yielding and therefore yields every ring position
— in particular at least one candidate.  The new_client `lap` also never
yields an empty sequence (its current node is yielded unconditionally), but
it performs no reset. -/
theorem c6_amended_reset_on_total_outage
    (nc : NodesContainer) (now : Nat)
    (hw : (working_nodes_exist now nc.nodes).1 = false)
    (hcur : nc.cur < nc.nodes.length) :
    (nc.lap now).1.length = nc.nodes.length
      ∧ (nc.lap now).1 ≠ []
      ∧ (∀ j, j < nc.nodes.length → j ∈ (nc.lap now).1.map Prod.fst)
      ∧ (∀ p ∈ (nc.lap now).1, p.2.available = true ∧ p.2.banned = false)
      ∧ (∀ (c : NewClientNodesContainer), (c.lap now).1 ≠ []) := by
  have hall : ∀ n ∈ reset_nodes (working_nodes_exist now nc.nodes).2,
      (n.is_working now).1 = true := by
    intro m hm
    obtain ⟨x, -, rfl⟩ := List.mem_map.mp hm
    exact (reset_is_working x now).1
  have hlen2 : (reset_nodes (working_nodes_exist now nc.nodes).2).length
      = nc.nodes.length := by
    simp [reset_nodes, working_nodes_exist_length]
  have hcur2 : nc.cur < (reset_nodes (working_nodes_exist now nc.nodes).2).length := by
    rw [hlen2]
    exact hcur
  simp only [NodesContainer.lap, hw, Bool.false_eq_true, if_false]
  refine ⟨?_, ?_, ?_, ?_, ?_⟩
  · rw [lap_loop_all_working_length now _ _ _ hcur2 hall]
    exact hlen2
  · apply List.ne_nil_of_length_pos
    rw [lap_loop_all_working_length now _ _ _ hcur2 hall, hlen2]
    exact Nat.lt_of_le_of_lt (Nat.zero_le _) hcur
  · intro j hjN
    apply lap_loop_working_mem
    · exact hcur2
    · rw [hlen2]
      exact hjN
    · exact hall _ (getD_mem _ _ _ (by rw [hlen2]; exact hjN))
    · exact mem_rotation _ _ _ hcur2 (by rw [hlen2]; exact hjN)
  · intro p hp
    exact lap_loop_yield_flags now _ _ _ p hp
  · intro c
    simp only [NewClientNodesContainer.lap]
    exact List.cons_ne_nil _ _

/-- Steepbase ring with every node banned. -/
def c6_steep_ring : NodesContainer :=
  { nodes := [{ Node.init "https://a.example" with banned := true },
      { Node.init "https://b.example" with banned := true }]
    cur := 0 }

/-- Witness for the amended C6 at a concrete all-banned ring (time 1, bans
from time 0 with window 2 still active). -/
theorem c6_amended_witness :
    (c6_steep_ring.lap 1).1.length = c6_steep_ring.nodes.length
      ∧ (c6_steep_ring.lap 1).1 ≠ []
      ∧ (∀ j, j < c6_steep_ring.nodes.length →
          j ∈ (c6_steep_ring.lap 1).1.map Prod.fst)
      ∧ (∀ p ∈ (c6_steep_ring.lap 1).1, p.2.available = true ∧ p.2.banned = false)
      ∧ (∀ (c : NewClientNodesContainer), (c.lap 1).1 ≠ []) :=
  c6_amended_reset_on_total_outage c6_steep_ring 1 (by decide) (by decide)

/-! ### The HTTP dispatcher (`steepbase/http_client.py`, `HttpClient.call`)

The transport (`requests.Session.post` plus `json.loads`) is a consumed
external collaborator; it is modelled as a function from the ring index of
the contacted node and the request body to an outcome.  A parsed JSON
response is modelled by the fields the dispatcher reads: the optional
`error` object (with its `code`, `message` and optional `data`/`data.name`),
the optional `result` payload (opaque), and whether any other keys are
present (which is what Python's truthiness test `assert result` sees). -/

/-- `HttpClient.success_codes`. -/
def success_codes : List Nat := [200, 301, 302, 303, 307, 308]

/-- `HttpClient.ban_codes`. -/
def ban_codes : List Nat := [403, 429]

/-- `HttpClient.unavailability_codes`. -/
def unavailability_codes : List Nat := [502, 503, 504]

/-- The `error` object of a JSON-RPC error response, as read by the
dispatcher: `code` and `message` (asserted present by
`_is_error_recoverable`), and the optional `data` key with its optional
`name` key (`none` ↦ no `data`; `some none` ↦ `data` without `name`;
`some (some s)` ↦ `data.name = s`). -/
structure RpcErr where
  code : Int
  message : String
  data : Option (Option String)
deriving DecidableEq, Repr

/-- A parsed JSON response body: optional `error` object, optional `result`
payload (opaque string), and whether the object carries any further keys
(so that Python truthiness is decidable on the model). -/
structure ParsedBody where
  error : Option RpcErr
  result : Option String
  other_keys : Bool
deriving DecidableEq, Repr

/-- Python truthiness of the parsed body (`assert result` on a dict: true
iff non-empty). -/
def ParsedBody.truthy (b : ParsedBody) : Bool :=
  b.error.isSome || b.result.isSome || b.other_keys

/-- Outcome of one `session.post` + decode attempt: a raised transport
exception (any member of `retry_exceptions` except the JSON decode error,
which has its own place below), or an HTTP response with a status code and
a body that either decodes (`some`) or raises `JSONDecodeError` (`none`). -/
inductive Outcome : Type
  | transport_exc
  | resp (status : Nat) (body : Option ParsedBody)
deriving DecidableEq, Repr

/-- The request body as far as the dispatcher shapes it: the method name
and whether the default-API wrapper (`'api': CONDENSER_API`) was added.
Serialisation of positional arguments is an external concern. -/
structure Body where
  method : String
  api_wrapper : Bool
deriving DecidableEq, Repr

/-- `HttpClient._is_error_recoverable`. -/
def is_error_recoverable (e : RpcErr) : Bool :=
  if e.message = "Unable to acquire database lock" then true
  else if e.message = "Unknown exception" then true
  else if e.message = "Internal Error" && e.code = -32603 then true
  else false

/-- How one attempt inside the `try` block of `HttpClient.call` is
classified.  Every constructor except `success` is absorbed by one of the
two `except` handlers, after which the `for` loop moves to the next
candidate; in particular `fatal_rpc` records that an `RPCError` was raised
at line 153 and then caught by the blanket `except Exception` handler at
line 165. -/
inductive AttemptClass : Type
  | transport_fail
  | http_fail (status : Nat)
  | decode_fail
  | blank_result
  | legacy_downgrade
  | recoverable_rpc (e : RpcErr)
  | fatal_rpc (e : RpcErr)
  | missing_result
  | success (payload : String)
deriving DecidableEq, Repr

/-- One attempt as recorded for analysis: the ring index contacted, whether
the body carried the default-API wrapper, and the classification. -/
structure AttemptEvent where
  idx : Nat
  api_wrapper : Bool
  cls : AttemptClass
deriving DecidableEq, Repr

/-- What `HttpClient.call` can return to its caller: the value of the
`result` field, or the `NumRetriesReached` exhaustion error raised after
the candidate loop. -/
inductive CallResult : Type
  | ok (payload : String)
  | num_retries_reached
deriving DecidableEq, Repr

/-- Classification of a successfully decoded body (lines 120–155 of
`http_client.py`): the blank assert, then the `error` branch with the
legacy (`code == 1`) downgrade test, the recoverability test, and the
fatal `RPCError`; otherwise the `result` lookup. -/
def classify_body (node : Node) (pb : ParsedBody) : AttemptClass :=
  if pb.truthy = false then AttemptClass.blank_result
  else
    match pb.error with
    | some err =>
      if err.code = 1 && node.use_condenser_api then AttemptClass.legacy_downgrade
      else if is_error_recoverable err then AttemptClass.recoverable_rpc err
      else AttemptClass.fatal_rpc err
    | none =>
      match pb.result with
      | some v => AttemptClass.success v
      | none => AttemptClass.missing_result

/-- One full attempt against a node (lines 104–155): send, check the HTTP
status (marking the node banned on 403/429 and unavailable on 502/503/504),
decode, classify; on a legacy error with full-API still advertised the node
is downgraded (line 139).  Returns the classification together with the
updated node. -/
def handle_outcome (node : Node) (now : Nat) (o : Outcome) : AttemptClass × Node :=
  match o with
  | Outcome.transport_exc => (AttemptClass.transport_fail, node)
  | Outcome.resp status body =>
    if success_codes.contains status then
      match body with
      | none => (AttemptClass.decode_fail, node)
      | some pb =>
        let c := classify_body node pb
        if c = AttemptClass.legacy_downgrade then
          (c, node.set_use_condenser_api false)
        else (c, node)
    else
      let n2 :=
        if ban_codes.contains status then node.set_banned now
        else if unavailability_codes.contains status then node.set_unavailable now
        else node
      (AttemptClass.http_fail status, n2)

/-- The candidate loop of `HttpClient.call` (lines 90–174).  `kw` models
the reserved `set_default_api` keyword argument: `some v` while the key is
still in `kwargs`; the first iteration pops it (every recursive call passes
`none`), exactly as `kwargs.pop('set_default_api')` does.  The wrapper is
added iff the (possibly popped-to-default-`True`) flag and the node's
`use_condenser_api` both hold.  Every non-success classification is caught
by one of the two `except` handlers and the loop continues with the next
candidate; exhaustion raises `NumRetriesReached`.  Node updates are
recorded into the threaded node list at the candidate's ring index. -/
def call_loop (transport : Nat → Body → Outcome) (method : String) (now : Nat) :
    Option Bool → List (Nat × Node) → List Node →
      CallResult × List AttemptEvent × List Node
  | _, [], nodes => (CallResult.num_retries_reached, [], nodes)
  | kw, c :: rest, nodes =>
    let wrapper := kw.getD true && c.2.use_condenser_api
    let r := handle_outcome c.2 now (transport c.1 { method := method, api_wrapper := wrapper })
    match r.1 with
    | AttemptClass.success v =>
      (CallResult.ok v, [{ idx := c.1, api_wrapper := wrapper, cls := AttemptClass.success v }],
        nodes.set c.1 r.2)
    | cls =>
      let t := call_loop transport method now none rest (nodes.set c.1 r.2)
      (t.1, { idx := c.1, api_wrapper := wrapper, cls := cls } :: t.2.1, t.2.2)

/-- `HttpClient.call`: one lap of candidates from the container, then the
candidate loop.  Returns what the caller sees, the attempt trace, and the
final node states. -/
def HttpClient.call (transport : Nat → Body → Outcome) (method : String)
    (set_default_api : Option Bool) (nc : NodesContainer) (now : Nat) :
    CallResult × List AttemptEvent × List Node :=
  let lp := nc.lap now
  call_loop transport method now set_default_api lp.1 lp.2.1

/-! ### Claims C1, C2, C3, C8 about `HttpClient.call` -/

/-- Indices appearing in the attempt trace are candidate indices. -/
theorem call_loop_trace_indices (transport : Nat → Body → Outcome)
    (method : String) (now : Nat) (cands : List (Nat × Node)) :
    ∀ (kw : Option Bool) (nodes : List Node),
      ∀ e ∈ (call_loop transport method now kw cands nodes).2.1,
        e.idx ∈ cands.map Prod.fst := by
  induction cands with
  | nil =>
    intro kw nodes e he
    simp [call_loop] at he
  | cons c rest ih =>
    intro kw nodes e he
    simp only [call_loop] at he
    split at he
    · rw [List.mem_singleton] at he
      subst he
      simp
    · rcases List.mem_cons.mp he with rfl | he2
      · simp
      · exact List.mem_cons_of_mem _ (ih none _ e he2)

/-- A fatal (non-recoverable, non-legacy) RPC error from the only node. -/
def c1_err : RpcErr := { code := -5, message := "boom", data := some (some "plugin_exception") }

/-- Transport in which the node answers HTTP 200 with the fatal error. -/
def c1_transport : Nat → Body → Outcome :=
  fun _ _ => Outcome.resp 200 (some { error := some c1_err, result := none, other_keys := false })

/-- **C1 (code bug).** The error is classified fatal (not recoverable, not
legacy), so an `RPCError` is raised at line 153 — but the blanket
`except Exception` handler at line 165 catches it, the loop continues, and
the caller receives `NumRetriesReached` instead of the fatal error.  The
fatal `RPCError` never escapes `HttpClient.call`. -/
theorem c1_fatal_rpc_error_swallowed :
    is_error_recoverable c1_err = false
      ∧ c1_err.code ≠ 1
      ∧ HttpClient.call c1_transport "get_block" none
          (NodesContainer.init ["https://n0.example"]) 0
        = (CallResult.num_retries_reached,
           [{ idx := 0, api_wrapper := true, cls := AttemptClass.fatal_rpc c1_err }],
           [Node.init "https://n0.example"]) := by decide

/-- The legacy (pre-appbase) error, code 1. -/
def c2_legacy_err : RpcErr := { code := 1, message := "Unknown method", data := none }

/-- Transport in which node 0 rejects the full-API body with a legacy error
but would answer `"ok0"` to the degraded body, and node 1 answers
`"ok1"`. -/
def c2_transport : Nat → Body → Outcome :=
  fun i b =>
    if i = 0 then
      if b.api_wrapper then
        Outcome.resp 200 (some { error := some c2_legacy_err, result := none, other_keys := false })
      else Outcome.resp 200 (some { error := none, result := some "ok0", other_keys := false })
    else Outcome.resp 200 (some { error := none, result := some "ok1", other_keys := false })

/-- **C2 (counterexample).** After node 0's legacy error the dispatcher
downgrades node 0 and `continue`s — which resumes the `lap` generator at
the *next* ring position.  Node 0 is contacted exactly once in this call
(even though its degraded body would have succeeded, third conjunct), and
the caller receives node 1's result: the claimed same-node retry does not
happen. -/
theorem c2_counterexample :
    HttpClient.call c2_transport "m" none
        (NodesContainer.init ["https://n0.example", "https://n1.example"]) 0
      = (CallResult.ok "ok1",
         [{ idx := 0, api_wrapper := true, cls := AttemptClass.legacy_downgrade },
          { idx := 1, api_wrapper := true, cls := AttemptClass.success "ok1" }],
         [Node.set_use_condenser_api (Node.init "https://n0.example") false,
          Node.init "https://n1.example"])
      ∧ ((HttpClient.call c2_transport "m" none
            (NodesContainer.init ["https://n0.example", "https://n1.example"]) 0).2.1.filter
          (fun e => e.idx == 0)).length = 1
      ∧ c2_transport 0 { method := "m", api_wrapper := false }
        = Outcome.resp 200 (some { error := none, result := some "ok0", other_keys := false }) := by
  decide

/-- **C2 (amended).** On a legacy error (code 1) from a node still
advertising full-API support, the dispatcher downgrades that node
(`use_condenser_api := false` recorded at its ring index) and then moves on
to the remaining candidates: the rest of the trace and the call result are
those of the remaining candidates, and every later attempt goes to a
remaining-candidate index — the same node is retried only if it appears
again among the remaining candidates, which within one lap it does not. -/
theorem c2_amended_downgrade_then_next_candidate
    (transport : Nat → Body → Outcome) (method : String) (now : Nat)
    (kw : Option Bool) (i : Nat) (n : Node) (rest : List (Nat × Node))
    (nodes : List Node) (pb : ParsedBody) (err : RpcErr)
    (hresp : transport i { method := method, api_wrapper := kw.getD true && n.use_condenser_api }
        = Outcome.resp 200 (some pb))
    (hpb : pb.error = some err)
    (hcode : err.code = 1)
    (hflag : n.use_condenser_api = true) :
    (call_loop transport method now kw ((i, n) :: rest) nodes).2.1
        = { idx := i, api_wrapper := kw.getD true, cls := AttemptClass.legacy_downgrade }
            :: (call_loop transport method now none rest
                (nodes.set i (n.set_use_condenser_api false))).2.1
      ∧ (call_loop transport method now kw ((i, n) :: rest) nodes).1
        = (call_loop transport method now none rest
            (nodes.set i (n.set_use_condenser_api false))).1
      ∧ (∀ e ∈ (call_loop transport method now none rest
            (nodes.set i (n.set_use_condenser_api false))).2.1,
          e.idx ∈ rest.map Prod.fst) := by
  have htruthy : pb.truthy = true := by
    simp [ParsedBody.truthy, hpb]
  have hho : handle_outcome n now
      (transport i { method := method, api_wrapper := kw.getD true && n.use_condenser_api })
      = (AttemptClass.legacy_downgrade, n.set_use_condenser_api false) := by
    rw [hresp]
    simp [handle_outcome, classify_body, htruthy, hpb, hcode, hflag, success_codes]
  refine ⟨?_, ?_, ?_⟩
  · simp only [call_loop]
    rw [hho]
    all_goals simp [hflag]
  · simp only [call_loop]
    rw [hho]
  · exact call_loop_trace_indices transport method now rest none _

/-- Witness for the amended C2 at the concrete two-node scenario. -/
theorem c2_amended_witness :
    (call_loop c2_transport "m" 0 none
          [(0, Node.init "https://n0.example"), (1, Node.init "https://n1.example")]
          [Node.init "https://n0.example", Node.init "https://n1.example"]).2.1
        = { idx := 0, api_wrapper := true, cls := AttemptClass.legacy_downgrade }
            :: (call_loop c2_transport "m" 0 none [(1, Node.init "https://n1.example")]
                ([Node.init "https://n0.example", Node.init "https://n1.example"].set 0
                  ((Node.init "https://n0.example").set_use_condenser_api false))).2.1
      ∧ (call_loop c2_transport "m" 0 none
            [(0, Node.init "https://n0.example"), (1, Node.init "https://n1.example")]
            [Node.init "https://n0.example", Node.init "https://n1.example"]).1
        = (call_loop c2_transport "m" 0 none [(1, Node.init "https://n1.example")]
            ([Node.init "https://n0.example", Node.init "https://n1.example"].set 0
              ((Node.init "https://n0.example").set_use_condenser_api false))).1
      ∧ (∀ e ∈ (call_loop c2_transport "m" 0 none [(1, Node.init "https://n1.example")]
            ([Node.init "https://n0.example", Node.init "https://n1.example"].set 0
              ((Node.init "https://n0.example").set_use_condenser_api false))).2.1,
          e.idx ∈ [(1, Node.init "https://n1.example")].map Prod.fst) :=
  c2_amended_downgrade_then_next_candidate c2_transport "m" 0 none 0
    (Node.init "https://n0.example") [(1, Node.init "https://n1.example")]
    [Node.init "https://n0.example", Node.init "https://n1.example"]
    { error := some c2_legacy_err, result := none, other_keys := false } c2_legacy_err
    (by decide) (by decide) (by decide) (by decide)

/-- Transport in which node 0 answers HTTP 503 and node 1 succeeds. -/
def c3_transport : Nat → Body → Outcome :=
  fun i _ =>
    if i = 0 then Outcome.resp 503 none
    else Outcome.resp 200 (some { error := none, result := some "ok1", other_keys := false })

/-- **C3 (counterexample).** A call made with `set_default_api=False`
suppresses the default-API wrapper only for the *first* candidate:
`kwargs.pop('set_default_api')` inside the loop consumes the reserved
keyword, so when node 0 fails with 503 and the loop moves on, node 1's body
carries the wrapper again — the claim's "every candidate node tried during
that one call omits the wrapper" is false. -/
theorem c3_counterexample :
    HttpClient.call c3_transport "m" (some false)
        (NodesContainer.init ["https://n0.example", "https://n1.example"]) 0
      = (CallResult.ok "ok1",
         [{ idx := 0, api_wrapper := false, cls := AttemptClass.http_fail 503 },
          { idx := 1, api_wrapper := true, cls := AttemptClass.success "ok1" }],
         [Node.set_unavailable (Node.init "https://n0.example") 0,
          Node.init "https://n1.example"])
      ∧ ((HttpClient.call c3_transport "m" (some false)
            (NodesContainer.init ["https://n0.example", "https://n1.example"]) 0).2.1.map
          (fun e => e.api_wrapper)) = [false, true] := by
  decide

/-- **C3 (amended).** With `set_default_api=False` only the first candidate
attempted in the call omits the default-API wrapper; from the second
candidate on the reserved keyword has been popped, and — as for calls that
never opt out — the wrapper is included exactly when the candidate node is
not downgraded. -/
theorem c3_amended_wrapper_only_first_candidate
    (transport : Nat → Body → Outcome) (method : String) (now : Nat) :
    (∀ (i : Nat) (n : Node) (rest : List (Nat × Node)) (nodes : List Node),
        ((call_loop transport method now (some false) ((i, n) :: rest) nodes).2.1.headD
            { idx := 0, api_wrapper := true, cls := AttemptClass.transport_fail }).api_wrapper
          = false)
      ∧ (∀ (cands : List (Nat × Node)) (nodes : List Node),
          ∀ e ∈ (call_loop transport method now none cands nodes).2.1,
            ∃ c ∈ cands, e.idx = c.1 ∧ e.api_wrapper = c.2.use_condenser_api) := by
  constructor
  · intro i n rest nodes
    simp only [call_loop]
    split <;> simp
  · intro cands
    induction cands with
    | nil =>
      intro nodes e he
      simp [call_loop] at he
    | cons c rest ih =>
      intro nodes e he
      simp only [call_loop] at he
      split at he
      · rw [List.mem_singleton] at he
        subst he
        exact ⟨c, by simp, rfl, by simp⟩
      · rcases List.mem_cons.mp he with rfl | he2
        · exact ⟨c, by simp, rfl, by simp⟩
        · obtain ⟨c2, hc2, hidx, hwrap⟩ := ih _ e he2
          exact ⟨c2, List.mem_cons_of_mem _ hc2, hidx, hwrap⟩

/-- Witness for the amended C3 at a concrete candidate list. -/
theorem c3_amended_witness :
    ((call_loop c3_transport "m" 0 (some false)
          [(0, Node.init "https://n0.example")] [Node.init "https://n0.example"]).2.1.headD
        { idx := 0, api_wrapper := true, cls := AttemptClass.transport_fail }).api_wrapper
      = false
      ∧ (∀ e ∈ (call_loop c3_transport "m" 0 none
            [(1, Node.init "https://n1.example")] [Node.init "https://n1.example"]).2.1,
          ∃ c ∈ [(1, Node.init "https://n1.example")],
            e.idx = c.1 ∧ e.api_wrapper = c.2.use_condenser_api) :=
  ⟨(c3_amended_wrapper_only_first_candidate c3_transport "m" 0).1 0
      (Node.init "https://n0.example") [] [Node.init "https://n0.example"],
    (c3_amended_wrapper_only_first_candidate c3_transport "m" 0).2
      [(1, Node.init "https://n1.example")] [Node.init "https://n1.example"]⟩

/-- Transport in which the only node answers HTTP 200 with an empty JSON
object: a response with neither a `result` nor an `error` field. -/
def c8_transport : Nat → Body → Outcome :=
  fun _ _ => Outcome.resp 200 (some { error := none, result := none, other_keys := false })

/-- **C8 (counterexample).** A response with neither field is *not* raised
to the caller as fatal: the empty body fails the `assert result` check,
the `AssertionError` is caught by the blanket `except Exception` handler,
and the loop continues — the call ends in `NumRetriesReached`, not in a
fatal error. -/
theorem c8_counterexample :
    ParsedBody.truthy { error := none, result := none, other_keys := false } = false
      ∧ HttpClient.call c8_transport "m" none
          (NodesContainer.init ["https://n0.example"]) 0
        = (CallResult.num_retries_reached,
           [{ idx := 0, api_wrapper := true, cls := AttemptClass.blank_result }],
           [Node.init "https://n0.example"]) := by
  decide

/-- An attempt whose 200-response has neither an `error` nor a `result`
field is classified blank (empty body) or missing-result (non-empty body),
and the node is left unchanged. -/
theorem handle_outcome_neither (node : Node) (now : Nat) (pb : ParsedBody)
    (he : pb.error = none) (hr : pb.result = none) :
    handle_outcome node now (Outcome.resp 200 (some pb))
      = ((if pb.truthy = false then AttemptClass.blank_result
          else AttemptClass.missing_result), node) := by
  obtain ⟨e, r, o⟩ := pb
  subst he
  subst hr
  rcases o with _ | _ <;>
    simp [handle_outcome, classify_body, ParsedBody.truthy, success_codes]

/-- **C8 (amended).** An attempt is classified as success with payload `v`
iff the parsed response has no `error` field and a `result` field holding
`v`.  A response with neither field is not a success, but neither is it
fatal to the call: the attempt is classified blank (the
"result entirely blank" assert, when the body is empty) or missing-result
(otherwise), the node is unchanged, and the dispatcher continues with the
next candidate — the call's outcome is that of the remaining candidates. -/
theorem c8_amended_success_iff (node : Node) (now : Nat) (pb : ParsedBody) :
    (∀ v : String,
        (handle_outcome node now (Outcome.resp 200 (some pb))).1 = AttemptClass.success v
          ↔ (pb.error = none ∧ pb.result = some v))
      ∧ (pb.error = none → pb.result = none →
          (handle_outcome node now (Outcome.resp 200 (some pb))).1
              = (if pb.truthy = false then AttemptClass.blank_result
                 else AttemptClass.missing_result)
            ∧ (handle_outcome node now (Outcome.resp 200 (some pb))).2 = node)
      ∧ (∀ (transport : Nat → Body → Outcome) (method : String) (kw : Option Bool)
          (i : Nat) (rest : List (Nat × Node)) (nodes : List Node),
          transport i { method := method, api_wrapper := kw.getD true && node.use_condenser_api }
              = Outcome.resp 200 (some pb) →
          pb.error = none → pb.result = none →
          (call_loop transport method now kw ((i, node) :: rest) nodes).1
            = (call_loop transport method now none rest (nodes.set i node)).1) := by
  refine ⟨?_, ?_, ?_⟩
  · intro v
    obtain ⟨e, r, o⟩ := pb
    rcases e with _ | err <;> rcases r with _ | v0 <;> rcases o with _ | _ <;>
      simp [handle_outcome, classify_body, ParsedBody.truthy, success_codes] <;>
      split_ifs <;> simp_all
  · intro he hr
    rw [handle_outcome_neither node now pb he hr]
    exact ⟨rfl, rfl⟩
  · intro transport method kw i rest nodes hresp he hr
    simp only [call_loop, hresp, handle_outcome_neither node now pb he hr]
    by_cases htr : pb.truthy = false <;> simp [htr]

/-- Witness for the amended C8 at concrete bodies. -/
theorem c8_amended_witness :
    ((handle_outcome (Node.init "https://n0.example") 0
          (Outcome.resp 200 (some { error := none, result := none, other_keys := false }))).1
        = (if ParsedBody.truthy { error := none, result := none, other_keys := false } = false
           then AttemptClass.blank_result else AttemptClass.missing_result)
      ∧ (handle_outcome (Node.init "https://n0.example") 0
          (Outcome.resp 200 (some { error := none, result := none, other_keys := false }))).2
        = Node.init "https://n0.example")
      ∧ ((handle_outcome (Node.init "https://n0.example") 0
            (Outcome.resp 200 (some { error := none, result := some "v", other_keys := false }))).1
          = AttemptClass.success "v"
        ↔ (({ error := none, result := some "v", other_keys := false } : ParsedBody).error = none
            ∧ ({ error := none, result := some "v", other_keys := false } : ParsedBody).result
              = some "v")) :=
  ⟨(c8_amended_success_iff (Node.init "https://n0.example") 0
      { error := none, result := none, other_keys := false }).2.1 rfl rfl,
    (c8_amended_success_iff (Node.init "https://n0.example") 0
      { error := none, result := some "v", other_keys := false }).1 "v"⟩
